import Mathlib

/-!
Shallow embedding of the golbazaar POS backend (a Frappe/ERPNext app) and
verification of claims about it.

The repository is Python glue over the Frappe framework.  We embed the
repository's own logic faithfully (control flow, arithmetic over ℚ in place
of Python floats, lists in place of DB result sets) and abstract framework
primitives (`check_password`, `search_by_term`, `strptime`,
`calculate_taxes_and_totals`, the insert/rollback transaction machinery) as
explicit parameters, since their implementations live outside this
repository.
-/

namespace Golbazaar

/-! ## Shift retry loop (`src/golbazaar/shift.py`, `open_shift` / `close_shift`)

Both functions wrap document creation in the same retry loop:

    max_retries = 5
    for retry in range(max_retries):
        try:
            ... create / submit / commit ...
            return {...}
        except frappe.QueryDeadlockError:
            frappe.db.rollback()
            if retry < max_retries - 1:
                time.sleep(retry + 1)
                continue
            else:
                frappe.log_error(...)
                raise
        except Exception:
            frappe.db.rollback()
            raise

The body of the `try` block (existence check, `frappe.get_doc`, `insert`,
`submit`, `commit`) is framework work; we abstract one execution of the body
as an `AttemptOutcome`, indexed by the attempt number. -/

/-- Outcome of one execution of the `try` body in `open_shift`/`close_shift`. -/
inductive AttemptOutcome where
  | success (v : String)
  | deadlock
  | otherError (e : String)
deriving DecidableEq, Repr

/-- Result of running the whole loop.  `returned v` models the Python
`return`; `raisedDeadlock`/`raisedOther` model the exception propagating out;
`fellThrough` models the loop ending without `return` (Python returns None). -/
inductive LoopResult where
  | returned (v : String)
  | raisedDeadlock
  | raisedOther (e : String)
  | fellThrough
deriving DecidableEq, Repr

/-- Trace of one run of the loop: the result, the number of attempts made,
and the number of `frappe.db.rollback()` calls performed. -/
structure RetryTrace where
  result : LoopResult
  attemptsMade : ℕ
  rollbacks : ℕ
deriving DecidableEq, Repr

/-- `for retry in range(maxRetries)` starting at iteration `retry`, with the
body outcome of iteration `i` given by `attempts i`.  Mirrors the
except-clause structure of `open_shift`/`close_shift` literally. -/
def retryOnDeadlockFrom (attempts : ℕ → AttemptOutcome) (maxRetries : ℕ) :
    (retry : ℕ) → RetryTrace
  | retry =>
    if _h : retry < maxRetries then
      match attempts retry with
      | .success v => ⟨.returned v, 1, 0⟩
      | .deadlock =>
          if retry < maxRetries - 1 then
            let rest := retryOnDeadlockFrom attempts maxRetries (retry + 1)
            ⟨rest.result, rest.attemptsMade + 1, rest.rollbacks + 1⟩
          else ⟨.raisedDeadlock, 1, 1⟩
      | .otherError e => ⟨.raisedOther e, 1, 1⟩
    else ⟨.fellThrough, 0, 0⟩
  termination_by retry => maxRetries - retry

/-- The retry loop of `open_shift`, with `max_retries = 5`, after the
posting_date/posting_time guard (the guard returns an error dict before the
loop and is not part of the retry discipline). -/
def open_shift_retry (attempts : ℕ → AttemptOutcome) : RetryTrace :=
  retryOnDeadlockFrom attempts 5 0

/-- The retry loop of `close_shift`, textually identical to `open_shift`'s
(`max_retries = 5`, same except clauses). -/
def close_shift_retry (attempts : ℕ → AttemptOutcome) : RetryTrace :=
  retryOnDeadlockFrom attempts 5 0

lemma retryOnDeadlockFrom_attempts_le (attempts : ℕ → AttemptOutcome)
    (maxRetries : ℕ) : ∀ retry,
    (retryOnDeadlockFrom attempts maxRetries retry).attemptsMade ≤ maxRetries - retry := by
  have key : ∀ k retry, maxRetries - retry = k →
      (retryOnDeadlockFrom attempts maxRetries retry).attemptsMade ≤ maxRetries - retry := by
    intro k
    induction k with
    | zero =>
        intro retry hk
        rw [retryOnDeadlockFrom]
        have : ¬ retry < maxRetries := by omega
        simp [this]
    | succ k ih =>
        intro retry hk
        rw [retryOnDeadlockFrom]
        by_cases h : retry < maxRetries
        · simp only [h, dif_pos]
          cases attempts retry with
          | success v => simp; omega
          | deadlock =>
              by_cases h2 : retry < maxRetries - 1
              · have hk' : maxRetries - (retry + 1) = k := by omega
                have := ih (retry + 1) hk'
                simp only [h2, if_pos]
                simp only [RetryTrace.mk.injEq] at *
                omega
              · simp [h2]; omega
          | otherError e => simp; omega
        · simp [h]
  intro retry
  exact key (maxRetries - retry) retry rfl

lemma retryOnDeadlockFrom_all_deadlock (attempts : ℕ → AttemptOutcome)
    (maxRetries : ℕ)
    (hall : ∀ i, i < maxRetries → attempts i = .deadlock) :
    ∀ retry, retry < maxRetries →
    retryOnDeadlockFrom attempts maxRetries retry =
      ⟨.raisedDeadlock, maxRetries - retry, maxRetries - retry⟩ := by
  have key : ∀ k retry, maxRetries - retry = k → retry < maxRetries →
      retryOnDeadlockFrom attempts maxRetries retry =
        ⟨.raisedDeadlock, maxRetries - retry, maxRetries - retry⟩ := by
    intro k
    induction k with
    | zero => intro retry hk h; omega
    | succ k ih =>
        intro retry hk h
        rw [retryOnDeadlockFrom]
        simp only [h, dif_pos, hall retry h]
        by_cases h2 : retry < maxRetries - 1
        · have hk' : maxRetries - (retry + 1) = k := by omega
          have hlt : retry + 1 < maxRetries := by omega
          simp only [h2, if_pos]
          rw [ih (retry + 1) hk' hlt]
          simp only [RetryTrace.mk.injEq]
          refine ⟨trivial, by omega, by omega⟩
        · have : k = 0 := by omega
          subst this
          simp only [h2, if_neg, if_false]
          simp only [RetryTrace.mk.injEq]
          refine ⟨trivial, by omega, by omega⟩
  intro retry h
  exact key (maxRetries - retry) retry rfl h

lemma retryOnDeadlockFrom_step (attempts : ℕ → AttemptOutcome)
    (maxRetries retry : ℕ) (h1 : retry < maxRetries - 1)
    (h2 : attempts retry = .deadlock) :
    retryOnDeadlockFrom attempts maxRetries retry =
      ⟨(retryOnDeadlockFrom attempts maxRetries (retry + 1)).result,
       (retryOnDeadlockFrom attempts maxRetries (retry + 1)).attemptsMade + 1,
       (retryOnDeadlockFrom attempts maxRetries (retry + 1)).rollbacks + 1⟩ := by
  rw [retryOnDeadlockFrom]
  have h : retry < maxRetries := by omega
  simp [h, h2, h1]

lemma retryOnDeadlockFrom_skip_deadlocks (attempts : ℕ → AttemptOutcome)
    (maxRetries : ℕ) : ∀ k, k ≤ maxRetries - 1 →
    (∀ i, i < k → attempts i = .deadlock) →
    retryOnDeadlockFrom attempts maxRetries 0 =
      ⟨(retryOnDeadlockFrom attempts maxRetries k).result,
       (retryOnDeadlockFrom attempts maxRetries k).attemptsMade + k,
       (retryOnDeadlockFrom attempts maxRetries k).rollbacks + k⟩ := by
  intro k
  induction k with
  | zero => intro _ _; simp
  | succ k ih =>
      intro hk hpre
      have h1 : k < maxRetries - 1 := by omega
      have := retryOnDeadlockFrom_step attempts maxRetries k h1 (hpre k (by omega))
      rw [ih (by omega) (fun i hi => hpre i (by omega)), this]
      simp only [RetryTrace.mk.injEq]
      exact ⟨trivial, by omega, by omega⟩

/-- C4: `open_shift` and `close_shift` retry document creation on
`QueryDeadlockError` (with a rollback each time) for at most 5 attempts in
total, re-raising the deadlock error after the fifth failed attempt; any
other exception is rolled back and re-raised immediately without retrying. -/
theorem shift_retry_on_deadlock (attempts : ℕ → AttemptOutcome) :
    open_shift_retry attempts = close_shift_retry attempts ∧
    (open_shift_retry attempts).attemptsMade ≤ 5 ∧
    ((∀ i, i < 5 → attempts i = .deadlock) →
      open_shift_retry attempts = ⟨.raisedDeadlock, 5, 5⟩) ∧
    (∀ k v, k < 5 → (∀ i, i < k → attempts i = .deadlock) →
      attempts k = .success v →
      open_shift_retry attempts = ⟨.returned v, k + 1, k⟩) ∧
    (∀ k e, k < 5 → (∀ i, i < k → attempts i = .deadlock) →
      attempts k = .otherError e →
      open_shift_retry attempts = ⟨.raisedOther e, k + 1, k + 1⟩) := by
  refine ⟨rfl, ?_, ?_, ?_, ?_⟩
  · have := retryOnDeadlockFrom_attempts_le attempts 5 0
    simpa [open_shift_retry] using this
  · intro hall
    have := retryOnDeadlockFrom_all_deadlock attempts 5 hall 0 (by omega)
    simpa [open_shift_retry] using this
  · intro k v hk hpre hsucc
    have hstep : retryOnDeadlockFrom attempts 5 k = ⟨.returned v, 1, 0⟩ := by
      rw [retryOnDeadlockFrom]
      simp [hk, hsucc]
    unfold open_shift_retry
    rw [retryOnDeadlockFrom_skip_deadlocks attempts 5 k (by omega) hpre, hstep]
    simp [Nat.add_comm]
  · intro k e hk hpre herr
    have hstep : retryOnDeadlockFrom attempts 5 k = ⟨.raisedOther e, 1, 1⟩ := by
      rw [retryOnDeadlockFrom]
      simp [hk, herr]
    unfold open_shift_retry
    rw [retryOnDeadlockFrom_skip_deadlocks attempts 5 k (by omega) hpre, hstep]
    simp [Nat.add_comm]

/-- Concrete attempt schedule: one deadlock, then success. -/
def shiftAttemptsEx : ℕ → AttemptOutcome :=
  fun i => if i = 0 then .deadlock else .success "ACC-POS-OPENING-2025-00001"

/-- Witness for C4: with one deadlock followed by a successful creation, the
loop returns the created name after two attempts and one rollback. -/
theorem shift_retry_on_deadlock_witness :
    open_shift_retry shiftAttemptsEx =
      ⟨.returned "ACC-POS-OPENING-2025-00001", 2, 1⟩ :=
  (shift_retry_on_deadlock shiftAttemptsEx).2.2.2.1 1
    "ACC-POS-OPENING-2025-00001" (by decide)
    (by intro i hi; interval_cases i; rfl) rfl

/-! ## POS sale (`src/golbazaar/pos_invoice.py`, `create_pos_sale`)

Python floats are modelled as ℚ.  `flt` coerces to a number; on our ℚ values
it is the identity.  Python's `x or y` on numbers picks `x` unless it is
falsy (zero). -/

/-- Python `x or y` for numbers: `x` if nonzero, else `y`. -/
def pyOr (x y : ℚ) : ℚ := if x ≠ 0 then x else y

/-- Python 3 `round` uses round-half-to-even on the scaled value. -/
def roundHalfEven (x : ℚ) : ℤ :=
  let f := ⌊x⌋
  let r := x - f
  if r < 1/2 then f
  else if 1/2 < r then f + 1
  else if f % 2 = 0 then f else f + 1

/-- Python `round(x, 2)`. -/
def round2 (x : ℚ) : ℚ := (roundHalfEven (x * 100) : ℚ) / 100

lemma roundHalfEven_dist (x : ℚ) : |(roundHalfEven x : ℚ) - x| ≤ 1/2 := by
  unfold roundHalfEven
  have h0 : ((⌊x⌋ : ℤ) : ℚ) ≤ x := Int.floor_le x
  have h1 : x < (⌊x⌋ : ℚ) + 1 := Int.lt_floor_add_one x
  by_cases hr : x - (⌊x⌋ : ℚ) < 1/2
  · simp only [hr, if_true]
    rw [abs_le]; constructor <;> linarith
  · by_cases hr2 : 1/2 < x - (⌊x⌋ : ℚ)
    · simp only [hr, if_false, hr2, if_true]
      push_cast
      rw [abs_le]; constructor <;> linarith
    · have heq : x - (⌊x⌋ : ℚ) = 1/2 := by linarith
      by_cases hpar : ⌊x⌋ % 2 = 0
      · simp only [hr, if_false, hr2, hpar, if_true]
        rw [abs_le]; constructor <;> linarith
      · simp only [hr, if_false, hr2, hpar, if_false]
        push_cast
        rw [abs_le]; constructor <;> linarith

lemma roundHalfEven_nonneg (x : ℚ) (hx : 0 ≤ x) : 0 ≤ roundHalfEven x := by
  have h0 : 0 ≤ ⌊x⌋ := Int.floor_nonneg.2 hx
  unfold roundHalfEven
  dsimp only
  split_ifs <;> omega

lemma round2_dist (x : ℚ) : |round2 x - x| ≤ 1/200 := by
  unfold round2
  have h := roundHalfEven_dist (x * 100)
  have h100 : (0:ℚ) < 100 := by norm_num
  have heq : (roundHalfEven (x * 100) : ℚ) / 100 - x
      = ((roundHalfEven (x * 100) : ℚ) - x * 100) / 100 := by ring
  rw [heq, abs_div, abs_of_pos h100, div_le_iff₀ h100]
  linarith

lemma round2_nonneg (x : ℚ) (hx : 0 ≤ x) : 0 ≤ round2 x := by
  unfold round2
  have := roundHalfEven_nonneg (x * 100) (by positivity)
  positivity

lemma round2_cents (x : ℚ) : ∃ n : ℤ, round2 x = (n : ℚ) / 100 :=
  ⟨roundHalfEven (x * 100), rfl⟩

/-- An item row of the `sync_pos_transaction` request payload; only the
fields read by the discount-normalization loop of `create_pos_sale` are
modelled (`None`/absent is `none`). -/
structure ReqItem where
  rate : Option ℚ
  discount_amount : Option ℚ
  discount_percentage : Option ℚ
deriving DecidableEq, Repr

/-- The discount-normalization loop of `create_pos_sale`
(`pos_invoice.py` lines 88–107), applied to one item:

    if item.get("rate") is not None and (item.get("discount_amount") is not None
                                         or item.get("discount_percentage") is not None):
        base_rate = flt(item.get("rate", 0))
        if item.get("discount_amount") is not None:
            effective_rate = base_rate - flt(item.get("discount_amount", 0))
        elif item.get("discount_percentage") is not None:
            pct = flt(item.get("discount_percentage", 0))
            effective_rate = base_rate * (1.0 - pct / 100.0)
        else:
            effective_rate = base_rate
        item["rate"] = round(max(effective_rate, 0), 2)
        item.pop("discount_amount", None)
        item.pop("discount_percentage", None)
-/
def applyItemDiscount (item : ReqItem) : ReqItem :=
  if item.rate.isSome &&
      (item.discount_amount.isSome || item.discount_percentage.isSome) then
    let base_rate := item.rate.getD 0
    let effective_rate :=
      match item.discount_amount with
      | some da => base_rate - da
      | none =>
        match item.discount_percentage with
        | some pct => base_rate * (1 - pct / 100)
        | none => base_rate
    { rate := some (round2 (max effective_rate 0)),
      discount_amount := none,
      discount_percentage := none }
  else item

/-- `create_pos_sale`'s item pre-processing: the loop over `data["items"]`. -/
def create_pos_sale_items (items : List ReqItem) : List ReqItem :=
  items.map applyItemDiscount

/-- The effective rate the claim describes: `rate - discount_amount` when
`discount_amount` is present (taking precedence), otherwise
`rate * (1 - discount_percentage/100)`. -/
def claimedEffectiveRate (r : ℚ) (da dp : Option ℚ) : ℚ :=
  match da with
  | some d => r - d
  | none => r * (1 - dp.getD 0 / 100)

example : create_pos_sale_items [⟨some 100, some 10, some 50⟩] =
    [⟨some 90, none, none⟩] := by
  norm_num [create_pos_sale_items, applyItemDiscount, round2, roundHalfEven]

example : create_pos_sale_items [⟨some 100, none, some 25⟩] =
    [⟨some 75, none, none⟩] := by
  norm_num [create_pos_sale_items, applyItemDiscount, round2, roundHalfEven]

example : create_pos_sale_items [⟨some 10, some 25, none⟩] =
    [⟨some 0, none, none⟩] := by
  norm_num [create_pos_sale_items, applyItemDiscount, round2, roundHalfEven]

/-- C2: in `create_pos_sale`, every item carrying a rate together with a
discount field has its rate replaced by the effective rate
(`discount_amount` taking precedence over `discount_percentage`), clamped to
be non-negative and rounded to 2 decimal places (a multiple of 1/100 within
1/200 of the clamped value), and both discount fields are removed. -/
theorem create_pos_sale_item_discounts (items : List ReqItem) (i : ℕ)
    (hi : i < items.length) (r : ℚ)
    (hr : (items.get ⟨i, hi⟩).rate = some r)
    (hd : (items.get ⟨i, hi⟩).discount_amount.isSome ∨
          (items.get ⟨i, hi⟩).discount_percentage.isSome) :
    ∃ r' : ℚ,
      (create_pos_sale_items items).get
          ⟨i, by simpa [create_pos_sale_items] using hi⟩ =
        ⟨some r', none, none⟩ ∧
      0 ≤ r' ∧ (∃ n : ℤ, r' = (n : ℚ) / 100) ∧
      |r' - max (claimedEffectiveRate r (items.get ⟨i, hi⟩).discount_amount
                 (items.get ⟨i, hi⟩).discount_percentage) 0| ≤ 1/200 := by
  set item := items.get ⟨i, hi⟩ with hitem
  have hget : (create_pos_sale_items items).get
      ⟨i, by simpa [create_pos_sale_items] using hi⟩ = applyItemDiscount item := by
    simp [create_pos_sale_items, hitem]
  have hcond : (item.rate.isSome &&
      (item.discount_amount.isSome || item.discount_percentage.isSome)) = true := by
    rcases hd with h | h <;> simp [hr, h]
  refine ⟨round2 (max (claimedEffectiveRate r item.discount_amount
      item.discount_percentage) 0), ?_, ?_, round2_cents _, round2_dist _⟩
  · rw [hget]
    unfold applyItemDiscount
    rw [hcond]
    simp only [if_true]
    cases hda : item.discount_amount with
    | some da => simp [claimedEffectiveRate, hda, hr]
    | none =>
        cases hdp : item.discount_percentage with
        | some dp => simp [claimedEffectiveRate, hda, hdp, hr]
        | none =>
            exfalso
            rcases hd with h | h
            · rw [hda] at h; simp at h
            · rw [hdp] at h; simp at h
  · exact round2_nonneg _ (le_max_right _ _)

/-- Witness for C2: an item with rate 100, discount_amount 10 and
discount_percentage 50 ends up with rate 90 (the amount wins), both discount
fields removed. -/
theorem create_pos_sale_item_discounts_witness :
    ∃ r' : ℚ,
      (create_pos_sale_items [⟨some 100, some 10, some 50⟩]).get
          ⟨0, by decide⟩ = ⟨some r', none, none⟩ ∧
      0 ≤ r' ∧ (∃ n : ℤ, r' = (n : ℚ) / 100) ∧
      |r' - max (claimedEffectiveRate 100 (some 10) (some 50)) 0| ≤ 1/200 := by
  have h := create_pos_sale_item_discounts [⟨some 100, some 10, some 50⟩] 0
    (by decide) 100 rfl (Or.inl rfl)
  simpa using h

/-! ### Payment reconciliation (`pos_invoice.py` lines 244–276)

After all tax/discount recalculation, `create_pos_sale` reconciles the
payment total to the invoice total.  The document fields read here
(`rounded_total`, `grand_total`, `base_rounded_total`, `base_grand_total`,
the payment rows, `paid_amount`) are inputs produced by the framework's
`calculate_taxes_and_totals`; we take them as parameters. -/

/-- The payment-related state of the POS Invoice document. -/
structure PayState where
  payments : List ℚ
  paid_amount : ℚ
  outstanding_amount : ℚ
  base_paid_amount : ℚ
  base_outstanding_amount : ℚ
deriving DecidableEq, Repr

/-- The error raised by `frappe.throw("Payment amount mismatch: ...")`,
carrying the values interpolated into the message. -/
inductive PosSaleError where
  | paymentMismatch (invoice_total payment_total grand_total rounded_total : ℚ)
deriving DecidableEq, Repr

/-- `invoice_total = flt(doc.rounded_total) or flt(doc.grand_total) or 0`
(Python `or` keeps the first truthy, i.e. nonzero, value). -/
def invoiceTotalOf (rounded_total grand_total : ℚ) : ℚ :=
  pyOr (pyOr rounded_total grand_total) 0

/-- Lines 246–276 of `create_pos_sale`: adjust the payment total to match
the invoice total, then the final `paid_amount` check.

    invoice_total = flt(doc.rounded_total) or flt(doc.grand_total) or 0
    payment_total = sum(flt(p.get("amount", 0)) for p in doc.payments)
    if abs(payment_total - invoice_total) > 0.01:
        if doc.payments:
            difference = invoice_total - payment_total
            doc.payments[0].amount = flt(doc.payments[0].amount) + flt(difference)
            payment_total = sum(...)
            doc.paid_amount = invoice_total
            doc.outstanding_amount = 0
            base_invoice_total = flt(doc.base_rounded_total) or flt(doc.base_grand_total) or 0
            doc.base_paid_amount = base_invoice_total
            doc.base_outstanding_amount = 0
        else:
            frappe.throw("Payment amount mismatch: ...")
    if abs(doc.paid_amount - invoice_total) > 0.01:
        doc.paid_amount = invoice_total
        doc.outstanding_amount = 0
        base_invoice_total = flt(doc.base_rounded_total) or flt(doc.base_grand_total) or 0
        doc.base_paid_amount = base_invoice_total
        doc.base_outstanding_amount = 0
-/
def reconcile_payments (rounded_total grand_total base_rounded_total
    base_grand_total : ℚ) (s : PayState) : Except PosSaleError PayState :=
  let invoice_total := invoiceTotalOf rounded_total grand_total
  let payment_total := s.payments.sum
  let step1 : Except PosSaleError PayState :=
    if 1/100 < |payment_total - invoice_total| then
      match s.payments with
      | p0 :: rest =>
          let difference := invoice_total - payment_total
          let base_invoice_total :=
            invoiceTotalOf base_rounded_total base_grand_total
          .ok { payments := (p0 + difference) :: rest,
                paid_amount := invoice_total,
                outstanding_amount := 0,
                base_paid_amount := base_invoice_total,
                base_outstanding_amount := 0 }
      | [] => .error (.paymentMismatch invoice_total payment_total
                        grand_total rounded_total)
    else .ok s
  match step1 with
  | .error e => .error e
  | .ok s1 =>
      if 1/100 < |s1.paid_amount - invoice_total| then
        .ok { s1 with
              paid_amount := invoice_total,
              outstanding_amount := 0,
              base_paid_amount :=
                invoiceTotalOf base_rounded_total base_grand_total,
              base_outstanding_amount := 0 }
      else .ok s1

/-- C1: when the payment total differs from the invoice total
(`rounded_total` if nonzero, else `grand_total`) by more than 0.01, a
non-empty payments list has its first payment adjusted by the difference so
that payments sum to the invoice total, with `paid_amount` set to the
invoice total and `outstanding_amount` to 0; an empty payments list makes
the operation fail with the "Payment amount mismatch" error. -/
theorem pos_sale_payment_reconciliation (rounded_total grand_total
    base_rounded_total base_grand_total : ℚ) (s : PayState)
    (hdiff : 1/100 <
      |s.payments.sum - invoiceTotalOf rounded_total grand_total|) :
    invoiceTotalOf rounded_total grand_total =
      (if rounded_total ≠ 0 then rounded_total else grand_total) ∧
    (∀ p0 rest, s.payments = p0 :: rest →
      ∃ s', reconcile_payments rounded_total grand_total base_rounded_total
              base_grand_total s = .ok s' ∧
        s'.payments = (p0 + (invoiceTotalOf rounded_total grand_total
                        - s.payments.sum)) :: rest ∧
        s'.payments.sum = invoiceTotalOf rounded_total grand_total ∧
        s'.paid_amount = invoiceTotalOf rounded_total grand_total ∧
        s'.outstanding_amount = 0) ∧
    (s.payments = [] →
      reconcile_payments rounded_total grand_total base_rounded_total
          base_grand_total s =
        .error (.paymentMismatch (invoiceTotalOf rounded_total grand_total)
                  s.payments.sum grand_total rounded_total)) := by
  obtain ⟨pays, pa, oa, bpa, boa⟩ := s
  simp only at hdiff ⊢
  refine ⟨?_, ?_, ?_⟩
  · unfold invoiceTotalOf pyOr
    by_cases h1 : rounded_total = 0
    · by_cases h2 : grand_total = 0 <;> simp [h1, h2]
    · simp [h1]
  · rintro p0 rest rfl
    have hres : reconcile_payments rounded_total grand_total
        base_rounded_total base_grand_total ⟨p0 :: rest, pa, oa, bpa, boa⟩ =
        .ok ⟨(p0 + (invoiceTotalOf rounded_total grand_total
            - (p0 :: rest).sum)) :: rest,
          invoiceTotalOf rounded_total grand_total, 0,
          invoiceTotalOf base_rounded_total base_grand_total, 0⟩ := by
      unfold reconcile_payments
      dsimp only
      rw [if_pos hdiff]
      dsimp only
      rw [if_neg]
      rw [sub_self, abs_zero]
      norm_num
    refine ⟨_, hres, rfl, ?_, rfl, rfl⟩
    simp only [List.sum_cons]
    ring
  · rintro rfl
    unfold reconcile_payments
    dsimp only
    rw [if_pos hdiff]

/-- Witness for C1: invoice total 100 (grand total, rounded total 0),
payments [50, 30]; the first payment is adjusted to 70 and the payments then
sum to the invoice total. -/
theorem pos_sale_payment_reconciliation_witness :
    ∃ s', reconcile_payments 0 100 0 100 ⟨[50, 30], 80, 20, 80, 20⟩ =
        .ok s' ∧
      s'.payments = [70, 30] ∧
      s'.payments.sum = invoiceTotalOf 0 100 ∧
      s'.paid_amount = invoiceTotalOf 0 100 ∧
      s'.outstanding_amount = 0 := by
  have h := (pos_sale_payment_reconciliation 0 100 0 100
      ⟨[50, 30], 80, 20, 80, 20⟩
      (by norm_num [invoiceTotalOf, pyOr])).2.1 50 [30] rfl
  obtain ⟨s', hok, hpay, hsum, hpaid, hout⟩ := h
  refine ⟨s', hok, ?_, hsum, hpaid, hout⟩
  rw [hpay]
  norm_num [invoiceTotalOf, pyOr]

/-! ## Customer naming (`src/golbazaar/customer.py`, `_get_available_name`)

Customer names are strings; we model them as `List Char` and the Customer
table as the list of existing names.  `parseSuffix base name` decides the
SQL `name LIKE 'base (%' AND name REGEXP '^base \([0-9]+\)$'` condition and
returns the `CAST(... AS UNSIGNED)` value of the parenthesised digits (the
model treats `base` literally, i.e. assumes it contains no SQL LIKE/regex
metacharacters, which matches the endpoint's customer names). -/

/-- Value of a digit string, as SQL `CAST(... AS UNSIGNED)` computes it. -/
def digitsVal (l : List Char) : ℕ :=
  l.foldl (fun a c => 10 * a + (c.toNat - 48)) 0

/-- Decide `^base \([0-9]+\)$` and extract the numeric suffix. -/
def parseSuffix (base name : List Char) : Option ℕ :=
  let pre := base ++ [' ', '(']
  if pre.isPrefixOf name then
    let rest := name.drop pre.length
    if rest.getLast? = some ')' then
      let mid := rest.dropLast
      if mid ≠ [] ∧ mid.all Char.isDigit then some (digitsVal mid) else none
    else none
  else none

/-- Decimal digits of `n`, most significant first (`fuel` bounds the
recursion depth; any `fuel ≥ n` is enough). -/
def natToCharsAux : ℕ → ℕ → List Char
  | 0, _ => []
  | _ + 1, 0 => []
  | fuel + 1, m + 1 =>
      natToCharsAux fuel ((m + 1) / 10) ++ [Char.ofNat (48 + (m + 1) % 10)]

/-- Python `str(n)` for a natural number (decimal, no leading zeros). -/
def natToChars (n : ℕ) : List Char :=
  if n = 0 then ['0'] else natToCharsAux n n

/-- `_get_available_name` (`customer.py` lines 5–40): return `base` if no
customer has that exact name; otherwise compute
`COALESCE(MAX(CAST(suffix AS UNSIGNED)), 1)` over the customers matching
`'base (N)'` (`sqlMax`), coerce a falsy (0) result to 1 as
`res[0][0] if res and res[0] and res[0][0] else 1` does, add 1, and return
`f"{base_name} ({next_suffix})"`. -/
def get_available_name (db : List (List Char)) (base : List Char) :
    List Char :=
  if base ∈ db then
    let suffixes := db.filterMap (parseSuffix base)
    let sqlMax : ℕ := if suffixes = [] then 1 else suffixes.foldl max 0
    let max_suffix := if sqlMax ≠ 0 then sqlMax else 1
    let next_suffix := max_suffix + 1
    base ++ [' ', '('] ++ natToChars next_suffix ++ [')']
  else base

/-- The largest numeric suffix among existing `'base (k)'` customers
(0 when there is none). -/
def maxSuffix (db : List (List Char)) (base : List Char) : ℕ :=
  (db.filterMap (parseSuffix base)).foldl max 0

lemma foldl_max_init_le (l : List ℕ) : ∀ b, b ≤ l.foldl max b := by
  induction l with
  | nil => simp
  | cons x xs ih =>
      intro b
      exact le_trans (le_max_left b x) (ih (max b x))

lemma le_foldl_max (l : List ℕ) : ∀ a b, a ∈ l → a ≤ l.foldl max b := by
  induction l with
  | nil => intro a b h; cases h
  | cons x xs ih =>
      intro a b h
      rcases List.mem_cons.1 h with rfl | h
      · exact le_trans (le_max_right b a) (foldl_max_init_le xs (max b a))
      · exact ih a (max b x) h


lemma char_digit_toNat (d : ℕ) (hd : d < 10) :
    (Char.ofNat (48 + d)).toNat = 48 + d := by
  interval_cases d <;> decide

lemma char_digit_isDigit (d : ℕ) (hd : d < 10) :
    (Char.ofNat (48 + d)).isDigit = true := by
  interval_cases d <;> decide

lemma natToChars_ne_nil (n : ℕ) : natToChars n ≠ [] := by
  unfold natToChars
  split
  · simp
  · next h =>
      cases n with
      | zero => exact absurd rfl h
      | succ m =>
          simp only [natToCharsAux]
          simp

lemma natToCharsAux_all_digit : ∀ fuel n,
    (natToCharsAux fuel n).all Char.isDigit = true := by
  intro fuel
  induction fuel with
  | zero => intro n; rfl
  | succ fuel ih =>
      intro n
      cases n with
      | zero => rfl
      | succ m =>
          simp only [natToCharsAux]
          rw [List.all_append, ih]
          simp only [Bool.true_and, List.all_cons, List.all_nil,
            Bool.and_true]
          exact char_digit_isDigit _ (Nat.mod_lt _ (by norm_num))

lemma natToChars_all_digit (n : ℕ) :
    (natToChars n).all Char.isDigit = true := by
  unfold natToChars
  split
  · decide
  · exact natToCharsAux_all_digit n n

lemma digitsVal_append (l : List Char) (c : Char) :
    digitsVal (l ++ [c]) = 10 * digitsVal l + (c.toNat - 48) := by
  unfold digitsVal
  rw [List.foldl_append]
  rfl

lemma digitsVal_natToCharsAux : ∀ fuel n, n ≤ fuel →
    digitsVal (natToCharsAux fuel n) = n := by
  intro fuel
  induction fuel with
  | zero =>
      intro n hn
      interval_cases n
      rfl
  | succ fuel ih =>
      intro n hn
      cases n with
      | zero => rfl
      | succ m =>
          simp only [natToCharsAux]
          rw [digitsVal_append,
            char_digit_toNat _ (Nat.mod_lt _ (by norm_num)),
            ih ((m + 1) / 10) (by omega)]
          omega

lemma digitsVal_natToChars (n : ℕ) : digitsVal (natToChars n) = n := by
  unfold natToChars
  split
  · next h => subst h; decide
  · exact digitsVal_natToCharsAux n n le_rfl

lemma parseSuffix_encode_assoc (base : List Char) (N : ℕ) :
    parseSuffix base ((base ++ [' ', '(']) ++ (natToChars N ++ [')'])) =
      some N := by
  have hpre : (base ++ [' ', '(']).isPrefixOf
      ((base ++ [' ', '(']) ++ (natToChars N ++ [')'])) = true := by
    rw [List.isPrefixOf_iff_prefix]
    exact ⟨natToChars N ++ [')'], rfl⟩
  unfold parseSuffix
  dsimp only
  rw [if_pos hpre, List.drop_left]
  rw [if_pos (List.getLast?_concat _)]
  rw [List.dropLast_concat]
  rw [if_pos ⟨natToChars_ne_nil N, natToChars_all_digit N⟩]
  rw [digitsVal_natToChars]

/-- Decoding the name built from suffix `N` recovers `N`. -/
lemma parseSuffix_encode (base : List Char) (N : ℕ) :
    parseSuffix base (base ++ [' ', '('] ++ natToChars N ++ [')']) =
      some N := by
  have hassoc : base ++ [' ', '('] ++ natToChars N ++ [')'] =
      (base ++ [' ', '(']) ++ (natToChars N ++ [')']) := by
    simp only [List.append_assoc]
  rw [hassoc]
  exact parseSuffix_encode_assoc base N

/-- C9 as stated is false: with customers `"john"` and `"john (0)"`, the
largest numeric suffix among `'john (k)'` customers is 0, yet
`_get_available_name` returns `"john (2)"`, whose suffix 2 is not one
greater than 0 (the `res[0][0] ... else 1` coercion treats the 0 suffix as
missing). -/
theorem get_available_name_claim_counterexample :
    get_available_name ["john".toList, "john (0)".toList] "john".toList =
      "john (2)".toList ∧
    maxSuffix ["john".toList, "john (0)".toList] "john".toList = 0 ∧
    ["john".toList, "john (0)".toList].filterMap
      (parseSuffix "john".toList) = [0] ∧
    (2 : ℕ) ≠ 0 + 1 := by
  refine ⟨?_, ?_, ?_, by decide⟩ <;> decide

/-- C9 amended: `_get_available_name` returns `base_name` unchanged when no
customer named `base_name` exists; otherwise it returns `'base_name (N)'`
with `N = max 1 (largest numeric suffix among 'base_name (k)' customers) + 1`
— in particular `N ≥ 2`, and `N = 2` both when no suffixed customer exists
and when the largest suffix is 0 — so `N` is strictly greater than every
existing numeric suffix and the returned name differs from `base_name` and
from every existing `'base_name (k)'` customer. -/
theorem get_available_name_spec (db : List (List Char)) (base : List Char) :
    (base ∉ db → get_available_name db base = base) ∧
    (base ∈ db →
      get_available_name db base =
        base ++ [' ', '('] ++ natToChars (max 1 (maxSuffix db base) + 1)
          ++ [')'] ∧
      2 ≤ max 1 (maxSuffix db base) + 1 ∧
      maxSuffix db base < max 1 (maxSuffix db base) + 1 ∧
      (∀ n ∈ db, ∀ k, parseSuffix base n = some k →
        k < max 1 (maxSuffix db base) + 1) ∧
      get_available_name db base ≠ base ∧
      (∀ n ∈ db, (∃ k, parseSuffix base n = some k) →
        n ≠ get_available_name db base)) := by
  constructor
  · intro h
    unfold get_available_name
    rw [if_neg h]
  · intro h
    have hN : get_available_name db base =
        base ++ [' ', '('] ++ natToChars (max 1 (maxSuffix db base) + 1)
          ++ [')'] := by
      unfold get_available_name
      rw [if_pos h]
      have harm : (if (if db.filterMap (parseSuffix base) = [] then 1
            else (db.filterMap (parseSuffix base)).foldl max 0) ≠ 0
          then (if db.filterMap (parseSuffix base) = [] then 1
            else (db.filterMap (parseSuffix base)).foldl max 0) else 1) =
          max 1 (maxSuffix db base) := by
        unfold maxSuffix
        by_cases hnil : db.filterMap (parseSuffix base) = []
        · simp [hnil]
        · simp only [hnil, if_false]
          by_cases hz : (db.filterMap (parseSuffix base)).foldl max 0 = 0
          · simp [hz]
          · simp only [ne_eq, hz, not_false_eq_true, if_true]
            omega
      simp only [harm]
    have hdom : ∀ n ∈ db, ∀ k, parseSuffix base n = some k →
        k < max 1 (maxSuffix db base) + 1 := by
      intro n hn k hk
      have hmem : k ∈ db.filterMap (parseSuffix base) :=
        List.mem_filterMap.2 ⟨n, hn, hk⟩
      have := le_foldl_max _ k 0 hmem
      unfold maxSuffix
      omega
    have hne : get_available_name db base ≠ base := by
      rw [hN]
      intro habs
      have hlen : 0 < (natToChars (max 1 (maxSuffix db base) + 1)).length :=
        List.length_pos.2 (natToChars_ne_nil _)
      have hlen2 := congrArg List.length habs
      simp only [List.length_append, List.length_cons,
        List.length_nil] at hlen2
      omega
    refine ⟨hN, by omega, by omega, hdom, hne, ?_⟩
    rintro n hn ⟨k, hk⟩ rfl
    have h2 := hdom _ hn _ hk
    rw [hN, parseSuffix_encode] at hk
    simp only [Option.some.injEq] at hk
    omega

/-- Witness for C9 (amended): with customers `"john"`, `"john (1)"` and
`"john (3)"`, the next available name is `"john (4)"`, distinct from all
existing names. -/
theorem get_available_name_spec_witness :
    get_available_name
        ["john".toList, "john (1)".toList, "john (3)".toList]
        "john".toList =
      "john (4)".toList ∧
    "john (4)".toList ≠ ("john".toList : List Char) := by
  have h := (get_available_name_spec
      ["john".toList, "john (1)".toList, "john (3)".toList]
      "john".toList).2 (by decide)
  obtain ⟨hN, -, -, -, hne, -⟩ := h
  refine ⟨?_, by decide⟩
  rw [hN]
  decide

/-! ## Customer creation (`src/golbazaar/customer.py`, `create_customer`)

Validation order and transactional behaviour.  The Customer table is the
list of existing names; `doc.insert` is abstracted by `insertExc` (`none`:
the framework insert succeeds and persists the document, `some e`: it
raises an exception with message `e`, after which the code runs
`frappe.db.rollback()` and returns the error). -/

/-- Python `str.isdigit()`: false on the empty string. -/
def isdigitPy (m : List Char) : Bool := !m.isEmpty && m.all Char.isDigit

/-- `re.match(r"[^@]+@[^@]+\.[^@]+", email)` as a Bool: some prefix of the
string decomposes as one-or-more non-@ chars, `@`, one-or-more non-@ chars,
`.`, and a non-@ char (backtracking regex = existence of a decomposition). -/
def emailMatch (s : List Char) : Bool :=
  (List.range s.length).any fun i =>
    decide (0 < i) && (s.take i).all (· != '@') && (s.get? i == some '@') &&
    ((List.range s.length).any fun j =>
      decide (i + 1 < j) && (s.get? j == some '.') &&
      ((s.drop (i + 1)).take (j - (i + 1))).all (· != '@') &&
      (match s.get? (j + 1) with
       | some d => d != '@'
       | none => false))

example : emailMatch "a@b.c".toList = true := by decide
example : emailMatch "a@bc".toList = false := by decide
example : emailMatch "ab.c".toList = false := by decide
example : emailMatch "@b.c".toList = false := by decide
example : emailMatch "a@b.".toList = false := by decide

/-- `if mobile_no:` is truthy and the validation
`not mobile.isdigit() or not (7 <= len(mobile) <= 15)` rejects it. -/
def mobileTruthyInvalid (mobile_no : Option (List Char)) : Bool :=
  match mobile_no with
  | some m => !m.isEmpty &&
      (!(isdigitPy m) || !(decide (7 ≤ m.length) && decide (m.length ≤ 15)))
  | none => false

/-- `if email_id:` is truthy and the regex rejects it. -/
def emailTruthyInvalid (email_id : Option (List Char)) : Bool :=
  match email_id with
  | some e => !e.isEmpty && !(emailMatch e)
  | none => false

/-- The error returns of `create_customer` (each is an `{"error": ...}`
dict in the source; `alreadyExists` carries the formatted-in name and
`insertException` carries `str(e)`). -/
inductive CustomerError where
  | missingRequired
  | invalidMobile
  | invalidEmail
  | alreadyExists (name : List Char)
  | insertException (e : String)
deriving DecidableEq, Repr

/-- Result of `create_customer` together with the final Customer table. -/
structure CreateCustomerOutcome where
  result : Except CustomerError (List Char)
  db : List (List Char)
deriving Repr

/-- `create_customer` (`customer.py` lines 42–98), over the claims' fields:
validations in source order, then the try block (duplicate handling,
insert & commit on success, rollback & error return on exception). -/
def create_customer (db : List (List Char)) (insertExc : Option String)
    (customer_name company : List Char)
    (mobile_no email_id : Option (List Char))
    (auto_suffix_duplicate : Bool) : CreateCustomerOutcome :=
  if customer_name = [] ∨ company = [] then ⟨.error .missingRequired, db⟩
  else if mobileTruthyInvalid mobile_no then ⟨.error .invalidMobile, db⟩
  else if emailTruthyInvalid email_id then ⟨.error .invalidEmail, db⟩
  else if customer_name ∈ db ∧ auto_suffix_duplicate = false then
    ⟨.error (.alreadyExists customer_name), db⟩
  else
    let target_name :=
      if customer_name ∈ db then get_available_name db customer_name
      else customer_name
    match insertExc with
    | some e => ⟨.error (.insertException e), db⟩
    | none => ⟨.ok target_name, db ++ [target_name]⟩

/-- C10: `create_customer` validates before mutating and is atomic on
failure: each rejected input (missing fields, invalid mobile, invalid
email, duplicate with `auto_suffix_duplicate=False`) yields the
corresponding error with the Customer table unchanged; an exception during
insertion is rolled back, returning the error rather than raising; and in
every error case no Customer is persisted. -/
theorem create_customer_validation_atomicity (db : List (List Char))
    (insertExc : Option String) (customer_name company : List Char)
    (mobile_no email_id : Option (List Char))
    (auto_suffix_duplicate : Bool) :
    ((customer_name = [] ∨ company = []) →
      create_customer db insertExc customer_name company mobile_no email_id
        auto_suffix_duplicate = ⟨.error .missingRequired, db⟩) ∧
    (¬(customer_name = [] ∨ company = []) →
      mobileTruthyInvalid mobile_no = true →
      create_customer db insertExc customer_name company mobile_no email_id
        auto_suffix_duplicate = ⟨.error .invalidMobile, db⟩) ∧
    (¬(customer_name = [] ∨ company = []) →
      mobileTruthyInvalid mobile_no = false →
      emailTruthyInvalid email_id = true →
      create_customer db insertExc customer_name company mobile_no email_id
        auto_suffix_duplicate = ⟨.error .invalidEmail, db⟩) ∧
    (¬(customer_name = [] ∨ company = []) →
      mobileTruthyInvalid mobile_no = false →
      emailTruthyInvalid email_id = false →
      customer_name ∈ db → auto_suffix_duplicate = false →
      create_customer db insertExc customer_name company mobile_no email_id
        auto_suffix_duplicate = ⟨.error (.alreadyExists customer_name), db⟩) ∧
    (∀ e, insertExc = some e →
      ¬(customer_name = [] ∨ company = []) →
      mobileTruthyInvalid mobile_no = false →
      emailTruthyInvalid email_id = false →
      ¬(customer_name ∈ db ∧ auto_suffix_duplicate = false) →
      create_customer db insertExc customer_name company mobile_no email_id
        auto_suffix_duplicate = ⟨.error (.insertException e), db⟩) ∧
    (∀ err, (create_customer db insertExc customer_name company mobile_no
        email_id auto_suffix_duplicate).result = .error err →
      (create_customer db insertExc customer_name company mobile_no email_id
        auto_suffix_duplicate).db = db) := by
  refine ⟨?_, ?_, ?_, ?_, ?_, ?_⟩
  · intro h
    unfold create_customer
    rw [if_pos h]
  · intro h1 h2
    unfold create_customer
    rw [if_neg h1, if_pos h2]
  · intro h1 h2 h3
    unfold create_customer
    rw [if_neg h1, if_neg (by rw [h2]; exact Bool.false_ne_true),
      if_pos h3]
  · intro h1 h2 h3 h4 h5
    unfold create_customer
    rw [if_neg h1, if_neg (by rw [h2]; exact Bool.false_ne_true),
      if_neg (by rw [h3]; exact Bool.false_ne_true), if_pos ⟨h4, h5⟩]
  · intro e he h1 h2 h3 h4
    unfold create_customer
    rw [if_neg h1, if_neg (by rw [h2]; exact Bool.false_ne_true),
      if_neg (by rw [h3]; exact Bool.false_ne_true), if_neg h4, he]
  · intro err
    unfold create_customer
    split
    · intro _; rfl
    · split
      · intro _; rfl
      · split
        · intro _; rfl
        · split
          · intro _; rfl
          · dsimp only
            split
            · intro _; rfl
            · intro habs; exact absurd habs (by simp)

/-- Witness for C10: inserting "alice" into a table holding "bob" while the
framework insert raises an exception returns the error and leaves the table
unchanged. -/
theorem create_customer_validation_atomicity_witness :
    create_customer ["bob".toList] (some "LinkValidationError")
        "alice".toList "Fresh Mart".toList (some "12345678".toList)
        (some "a@b.c".toList) true =
      ⟨.error (.insertException "LinkValidationError"), ["bob".toList]⟩ :=
  (create_customer_validation_atomicity ["bob".toList]
      (some "LinkValidationError") "alice".toList "Fresh Mart".toList
      (some "12345678".toList) (some "a@b.c".toList) true).2.2.2.2.1
    "LinkValidationError" rfl (by decide) (by decide) (by decide) (by decide)

/-! ## Item-tax-template expansion (`pos_invoice.py` lines 186–227)

After insertion, `create_pos_sale` collects the Item Tax Template Details of
the invoice's items into `tax_map` (first template encountered wins per
`tax_type`), appends a tax row for each `tax_type` with no existing row of
that account head, and recalculates.  `frappe.get_all("Item Tax Template
Detail", filters={"parent": t}, ..., order_by="idx")` is abstracted as the
environment `env : template name → details in idx order`;
`calculate_taxes_and_totals` as `recalc`.  An item's absent/empty
`item_tax_template` (Python-falsy) is the empty string. -/

/-- An invoice item as read by the tax-expansion block. -/
structure DocItem where
  item_tax_template : String
deriving DecidableEq, Repr

/-- A row of the document's `taxes` child table, with the fields the block
writes. -/
structure TaxRow where
  charge_type : String
  account_head : String
  rate : ℚ
  description : String
  included_in_print_rate : Bool
deriving DecidableEq, Repr

/-- The slice of the POS Invoice document the block reads and writes. -/
structure TaxDoc where
  items : List DocItem
  taxes : List TaxRow
  included_in_print_rate : Bool

/-- `tax_type.split("-")[0].strip() if "-" in tax_type else tax_type`. -/
def descOf (t : String) : String :=
  if t.contains '-' then (t.takeWhile (fun c => c ≠ '-')).trim else t

/-- One step of the `for tax_detail in tax_details` loop:
`if tax_type not in tax_map: tax_map[tax_type] = {...}` (dict insertion
order is append order). -/
def taxMapInsert (m : List (String × ℚ × String)) (d : String × ℚ) :
    List (String × ℚ × String) :=
  if (m.map Prod.fst).contains d.1 then m
  else m ++ [(d.1, d.2, descOf d.1)]

/-- The `for item in doc.items` loop building `tax_map`. -/
def buildTaxMap (env : String → List (String × ℚ))
    (items : List DocItem) : List (String × ℚ × String) :=
  items.foldl (fun m item =>
    if item.item_tax_template ≠ "" then
      (env item.item_tax_template).foldl taxMapInsert m
    else m) []

/-- All Item Tax Template Details of the invoice's items, in encounter
order (items in document order, each template's details in idx order). -/
def allDetails (env : String → List (String × ℚ)) (items : List DocItem) :
    List (String × ℚ) :=
  (items.filter (fun it => it.item_tax_template ≠ "")).flatMap
    (fun it => env it.item_tax_template)

/-- The tax row appended for a `tax_map` entry. -/
def rowOfEntry (iipr : Bool) (e : String × ℚ × String) : TaxRow :=
  ⟨"On Net Total", e.1, e.2.1, e.2.2, iipr⟩

/-- The block at `pos_invoice.py` lines 188–227. -/
def add_template_taxes (env : String → List (String × ℚ))
    (recalc : TaxDoc → TaxDoc) (doc : TaxDoc) : TaxDoc :=
  if doc.items.any (fun it => it.item_tax_template ≠ "") then
    let tax_map := buildTaxMap env doc.items
    if tax_map ≠ [] then
      let existing := doc.taxes.map (fun t => t.account_head)
      let newRows := (tax_map.filter
          (fun e => !(existing.contains e.1))).map
        (rowOfEntry doc.included_in_print_rate)
      recalc { doc with taxes := doc.taxes ++ newRows }
    else doc
  else doc

lemma contains_append_eq (A B : List String) (a : String) :
    (A ++ B).contains a = (A.contains a || B.contains a) := by
  induction A with
  | nil => simp
  | cons x xs ih => simp [List.contains_cons, ih, Bool.or_assoc]

lemma foldl_taxMapInsert_filter (τ : String) :
    ∀ (ds : List (String × ℚ)) (m : List (String × ℚ × String)),
    (ds.foldl taxMapInsert m).filter (fun e => e.1 == τ) =
      m.filter (fun e => e.1 == τ) ++
      (if (m.map Prod.fst).contains τ then []
       else ((ds.find? (fun d => d.1 == τ)).map
         (fun d => (d.1, d.2, descOf d.1))).toList) := by
  intro ds
  induction ds with
  | nil =>
      intro m
      simp
  | cons d ds ih =>
      intro m
      rw [List.foldl_cons, ih]
      by_cases hd : (m.map Prod.fst).contains d.1
      · have hm : taxMapInsert m d = m := by unfold taxMapInsert; rw [if_pos hd]
        rw [hm]
        by_cases hτ : (m.map Prod.fst).contains τ
        · rw [if_pos hτ, if_pos hτ]
        · rw [if_neg hτ, if_neg hτ]
          have hdτ : (d.1 == τ) = false := by
            by_contra habs
            rw [Bool.not_eq_false, beq_iff_eq] at habs
            rw [habs] at hd
            exact hτ hd
          rw [List.find?_cons, hdτ]
      · have hm : taxMapInsert m d = m ++ [(d.1, d.2, descOf d.1)] := by
          unfold taxMapInsert; rw [if_neg hd]
        rw [hm, List.filter_append]
        by_cases hdτ : d.1 = τ
        · subst hdτ
          have hcontains : ((m ++ [(d.1, d.2, descOf d.1)]).map
              Prod.fst).contains d.1 = true := by
            simp
          rw [if_pos hcontains, if_neg hd]
          rw [List.find?_cons]
          simp
        · have hbeq : (d.1 == τ) = false := by
            simp [hdτ]
          have hsingle : ([(d.1, d.2, descOf d.1)].map
              (Prod.fst (β := ℚ × String))).contains τ = false := by
            simp [Ne.symm hdτ]
          have hcontains : ((m ++ [(d.1, d.2, descOf d.1)]).map
              Prod.fst).contains τ = ((m.map Prod.fst).contains τ) := by
            rw [List.map_append, contains_append_eq, hsingle,
              Bool.or_false]
          rw [hcontains]
          have hfilter : ([(d.1, d.2, descOf d.1)].filter
              (fun e => e.1 == τ)) = [] := by
            simp [hbeq]
          rw [hfilter, List.append_nil, List.find?_cons, hbeq]

lemma buildTaxMap_eq_foldl (env : String → List (String × ℚ)) :
    ∀ (items : List DocItem) (m : List (String × ℚ × String)),
    items.foldl (fun m item =>
      if item.item_tax_template ≠ "" then
        (env item.item_tax_template).foldl taxMapInsert m
      else m) m =
    (allDetails env items).foldl taxMapInsert m := by
  intro items
  induction items with
  | nil => intro m; rfl
  | cons it items ih =>
      intro m
      rw [List.foldl_cons]
      by_cases hit : it.item_tax_template ≠ ""
      · rw [if_pos hit, ih]
        unfold allDetails
        rw [List.filter_cons_of_pos (by simpa using hit),
          List.flatMap_cons, List.foldl_append]
      · rw [if_neg hit, ih]
        unfold allDetails
        rw [List.filter_cons_of_neg (by simpa using hit)]

lemma buildTaxMap_filter (env : String → List (String × ℚ))
    (items : List DocItem) (τ : String) :
    (buildTaxMap env items).filter (fun e => e.1 == τ) =
      (((allDetails env items).find? (fun d => d.1 == τ)).map
        (fun d => (d.1, d.2, descOf d.1))).toList := by
  unfold buildTaxMap
  rw [buildTaxMap_eq_foldl, foldl_taxMapInsert_filter]
  simp

/-- C3: when some invoice item carries an `item_tax_template`, then for a
tax type `τ` appearing in the items' Item Tax Template Details whose
account head has no existing tax row, the block appends exactly one tax row
for `τ` — charge type "On Net Total", account head `τ`, the rate of the
first detail encountered for `τ`, `included_in_print_rate` matching the
document setting — leaves the other fields of the document unchanged, and
hands the extended document to `calculate_taxes_and_totals`. -/
theorem pos_sale_tax_template_expansion (env : String → List (String × ℚ))
    (recalc : TaxDoc → TaxDoc) (doc : TaxDoc) (τ : String) (r : ℚ)
    (hfirst : (allDetails env doc.items).find? (fun d => d.1 == τ) =
      some (τ, r))
    (hnew : (doc.taxes.map (fun t => t.account_head)).contains τ = false) :
    ∃ newRows,
      add_template_taxes env recalc doc =
        recalc { doc with taxes := doc.taxes ++ newRows } ∧
      newRows.filter (fun t => t.account_head == τ) =
        [⟨"On Net Total", τ, r, descOf τ, doc.included_in_print_rate⟩] ∧
      (doc.taxes ++ newRows).filter (fun t => t.account_head == τ) =
        [⟨"On Net Total", τ, r, descOf τ, doc.included_in_print_rate⟩] := by
  have hmem : (τ, r) ∈ allDetails env doc.items :=
    List.mem_of_find?_eq_some hfirst
  have hany : doc.items.any (fun it => it.item_tax_template ≠ "") = true := by
    unfold allDetails at hmem
    rw [List.mem_flatMap] at hmem
    obtain ⟨it, hit, -⟩ := hmem
    rw [List.mem_filter] at hit
    rw [List.any_eq_true]
    exact ⟨it, hit.1, hit.2⟩
  have hfilterτ : (buildTaxMap env doc.items).filter (fun e => e.1 == τ) =
      [(τ, r, descOf τ)] := by
    rw [buildTaxMap_filter, hfirst]
    rfl
  have hmapne : buildTaxMap env doc.items ≠ [] := by
    intro habs
    rw [habs] at hfilterτ
    exact absurd hfilterτ (by simp)
  refine ⟨((buildTaxMap env doc.items).filter
      (fun e => !((doc.taxes.map (fun t => t.account_head)).contains e.1))).map
    (rowOfEntry doc.included_in_print_rate), ?_, ?_, ?_⟩
  · unfold add_template_taxes
    rw [if_pos hany]
    dsimp only
    rw [if_pos hmapne]
  · rw [List.filter_map]
    have hcomp : ∀ e ∈ (buildTaxMap env doc.items).filter
        (fun e => !((doc.taxes.map (fun t => t.account_head)).contains e.1)),
        ((fun t : TaxRow => t.account_head == τ) ∘
          rowOfEntry doc.included_in_print_rate) e = (e.1 == τ) := by
      intro e _
      rfl
    rw [List.filter_congr hcomp]
    rw [List.filter_comm, hfilterτ]
    rw [List.filter_cons_of_pos (by simpa using hnew)]
    rfl
  · rw [List.filter_append]
    have hzero : doc.taxes.filter (fun t => t.account_head == τ) = [] := by
      rw [List.filter_eq_nil_iff]
      intro t ht
      have hτni : τ ∉ doc.taxes.map (fun t => t.account_head) := by
        simpa using hnew
      simp only [beq_iff_eq, ne_eq]
      intro habs
      exact hτni (List.mem_map.2 ⟨t, ht, habs⟩)
    rw [hzero, List.nil_append, List.filter_map]
    have hcomp : ∀ e ∈ (buildTaxMap env doc.items).filter
        (fun e => !((doc.taxes.map (fun t => t.account_head)).contains e.1)),
        ((fun t : TaxRow => t.account_head == τ) ∘
          rowOfEntry doc.included_in_print_rate) e = (e.1 == τ) := by
      intro e _
      rfl
    rw [List.filter_congr hcomp, List.filter_comm, hfilterτ]
    rw [List.filter_cons_of_pos (by simpa using hnew)]
    rfl

/-- Witness for C3: one item with template "GST 18", whose details name the
account "VAT - FM" at 18%, on a document with one unrelated existing tax
row: exactly one new row for "VAT - FM" is appended. -/
theorem pos_sale_tax_template_expansion_witness :
    ∃ newRows : List TaxRow,
      add_template_taxes
          (fun t => if t = "GST 18" then [("VAT - FM", 18)] else [])
          id ⟨[⟨"GST 18"⟩], [⟨"On Net Total", "Other - FM", 5, "Other", false⟩],
            false⟩ =
        id (⟨[⟨"GST 18"⟩],
             [⟨"On Net Total", "Other - FM", 5, "Other", false⟩] ++ newRows,
             false⟩ : TaxDoc) ∧
      newRows.filter (fun t => t.account_head == "VAT - FM") =
        [⟨"On Net Total", "VAT - FM", 18, descOf "VAT - FM", false⟩] ∧
      (([⟨"On Net Total", "Other - FM", 5, "Other", false⟩] : List TaxRow)
          ++ newRows).filter
          (fun t => t.account_head == "VAT - FM") =
        [⟨"On Net Total", "VAT - FM", 18, descOf "VAT - FM", false⟩] := by
  have h := pos_sale_tax_template_expansion
    (fun t => if t = "GST 18" then [("VAT - FM", 18)] else [])
    id ⟨[⟨"GST 18"⟩], [⟨"On Net Total", "Other - FM", 5, "Other", false⟩],
      false⟩ "VAT - FM" 18 (by decide) (by decide)
  exact h

/-! ## Login (`src/golbazaar/api.py`, `login_device`)

`check_password` (framework) either succeeds or raises
`AuthenticationError`; we abstract its outcome as `validPassword`.
`get_api_keys` (which generates missing keys) is abstracted by the pair it
returns.  The `GolPos User`, `Company Link` and `POS Profile` tables are
lists of rows with the queried fields. -/

/-- A `GolPos User` row (`get_value("GolPos User", {"pos_user": user_name},
["name"])` reads these fields). -/
structure GolposUser where
  name : String
  pos_user : String
deriving DecidableEq, Repr

/-- A `Company Link` child row. -/
structure CompanyLink where
  parent : String
  parentfield : String
  linked_company : String
deriving DecidableEq, Repr

/-- A `POS Profile` row with the filtered fields. -/
structure PosProfile where
  name : String
  company : String
  disabled : Bool
deriving DecidableEq, Repr

/-- The three response shapes of `login_device` (the generic 500 handler
for unexpected framework exceptions is outside the model). -/
inductive LoginResp where
  | authError (status : ℕ) (msg : String)
  | notFound (msg : String)
  | ok (user device_id : String) (companies : List (String × List String))
      (api_key api_secret : String)
deriving DecidableEq, Repr

/-- Keys of a Python dict in insertion order: first occurrence wins. -/
def dedupKeysAux (seen : List String) : List String → List String
  | [] => []
  | x :: xs =>
      if seen.contains x then dedupKeysAux seen xs
      else x :: dedupKeysAux (x :: seen) xs

def dedupKeys (l : List String) : List String := dedupKeysAux [] l

lemma mem_dedupKeysAux : ∀ (l seen : List String) (x : String),
    x ∈ dedupKeysAux seen l ↔ (x ∈ l ∧ x ∉ seen) := by
  intro l
  induction l with
  | nil => intro seen x; simp [dedupKeysAux]
  | cons y ys ih =>
      intro seen x
      unfold dedupKeysAux
      by_cases hy : seen.contains y
      · rw [if_pos hy, ih]
        have hyseen : y ∈ seen := by simpa using hy
        constructor
        · rintro ⟨h1, h2⟩
          exact ⟨List.mem_cons_of_mem y h1, h2⟩
        · rintro ⟨h1, h2⟩
          rcases List.mem_cons.1 h1 with rfl | h1
          · exact absurd hyseen h2
          · exact ⟨h1, h2⟩
      · rw [if_neg hy]
        have hyseen : y ∉ seen := by simpa using hy
        rw [List.mem_cons, ih]
        constructor
        · rintro (rfl | ⟨h1, h2⟩)
          · exact ⟨List.mem_cons_self _ _, hyseen⟩
          · rw [List.mem_cons] at h2
            push_neg at h2
            exact ⟨List.mem_cons_of_mem y h1, h2.2⟩
        · rintro ⟨h1, h2⟩
          rcases List.mem_cons.1 h1 with rfl | h1
          · exact Or.inl rfl
          · by_cases hxy : x = y
            · exact Or.inl hxy
            · refine Or.inr ⟨h1, ?_⟩
              rw [List.mem_cons]
              push_neg
              exact ⟨hxy, h2⟩

lemma mem_dedupKeys (l : List String) (x : String) :
    x ∈ dedupKeys l ↔ x ∈ l := by
  unfold dedupKeys
  rw [mem_dedupKeysAux]
  simp

/-- `login_device` (`api.py` lines 7–66). -/
def login_device (validPassword : Bool) (golposUsers : List GolposUser)
    (companyLinks : List CompanyLink) (posProfiles : List PosProfile)
    (apiKey apiSecret : String) (user_name device_id : String) : LoginResp :=
  if !validPassword then .authError 401 "Invalid credentials"
  else
    match golposUsers.find? (fun u => u.pos_user == user_name) with
    | none => .notFound "User not found in GolPos system"
    | some gu =>
        let links := companyLinks.filter
          (fun l => l.parent == gu.name && l.parentfield == "gpos_company")
        let companies :=
          (dedupKeys ((links.map (fun l => l.linked_company)).filter
            (fun c => c ≠ ""))).map
          (fun c => (c, (posProfiles.filter
            (fun p => p.company == c && p.disabled == false)).map
            (fun p => p.name)))
        .ok user_name device_id companies apiKey apiSecret

/-- C8: `login_device` has exactly three outcomes: an invalid password
yields HTTP 401 "Invalid credentials"; a valid password with no GolPos User
record yields "User not found in GolPos system"; a valid password for a
registered user yields the user, the echoed device id, a map from each
(non-empty) linked company to its enabled POS Profile names, and the user's
api key and secret. -/
theorem login_device_outcomes (validPassword : Bool)
    (golposUsers : List GolposUser) (companyLinks : List CompanyLink)
    (posProfiles : List PosProfile) (apiKey apiSecret : String)
    (user_name device_id : String) :
    (validPassword = false →
      login_device validPassword golposUsers companyLinks posProfiles
        apiKey apiSecret user_name device_id =
        .authError 401 "Invalid credentials") ∧
    (validPassword = true →
      golposUsers.find? (fun u => u.pos_user == user_name) = none →
      login_device validPassword golposUsers companyLinks posProfiles
        apiKey apiSecret user_name device_id =
        .notFound "User not found in GolPos system") ∧
    (∀ gu, validPassword = true →
      golposUsers.find? (fun u => u.pos_user == user_name) = some gu →
      ∃ companies,
        login_device validPassword golposUsers companyLinks posProfiles
          apiKey apiSecret user_name device_id =
          .ok user_name device_id companies apiKey apiSecret ∧
        (∀ c ps, (c, ps) ∈ companies →
          c ≠ "" ∧
          (∃ l ∈ companyLinks, l.parent = gu.name ∧
            l.parentfield = "gpos_company" ∧ l.linked_company = c) ∧
          ps = (posProfiles.filter
            (fun p => p.company == c && p.disabled == false)).map
            (fun p => p.name)) ∧
        (∀ l ∈ companyLinks, l.parent = gu.name →
          l.parentfield = "gpos_company" → l.linked_company ≠ "" →
          ∃ ps, (l.linked_company, ps) ∈ companies)) := by
  refine ⟨?_, ?_, ?_⟩
  · rintro rfl
    rfl
  · rintro rfl hfind
    unfold login_device
    rw [hfind]
    rfl
  · rintro gu rfl hfind
    unfold login_device
    rw [hfind]
    dsimp only
    refine ⟨_, rfl, ?_, ?_⟩
    · intro c ps hmem
      rw [List.mem_map] at hmem
      obtain ⟨c', hc', heq⟩ := hmem
      obtain ⟨rfl, rfl⟩ : c' = c ∧ (posProfiles.filter
          (fun p => p.company == c' && p.disabled == false)).map
          (fun p => p.name) = ps := by
        exact ⟨congrArg Prod.fst heq, congrArg Prod.snd heq⟩
      rw [mem_dedupKeys, List.mem_filter] at hc'
      obtain ⟨hc'mem, hc'ne⟩ := hc'
      rw [List.mem_map] at hc'mem
      obtain ⟨l, hl, rfl⟩ := hc'mem
      rw [List.mem_filter] at hl
      obtain ⟨hlmem, hlprop⟩ := hl
      rw [Bool.and_eq_true, beq_iff_eq, beq_iff_eq] at hlprop
      refine ⟨by simpa using hc'ne, ⟨l, hlmem, hlprop.1, hlprop.2, rfl⟩, rfl⟩
    · intro l hl hparent hfield hne
      refine ⟨_, List.mem_map.2 ⟨l.linked_company, ?_, rfl⟩⟩
      rw [mem_dedupKeys, List.mem_filter]
      refine ⟨List.mem_map.2 ⟨l, ?_, rfl⟩, by simpa using hne⟩
      rw [List.mem_filter]
      refine ⟨hl, ?_⟩
      rw [Bool.and_eq_true, beq_iff_eq, beq_iff_eq]
      exact ⟨hparent, hfield⟩

/-- Witness for C8: a registered user of one company with one enabled and
one disabled POS Profile logs in and receives that company mapped to the
enabled profile only. -/
theorem login_device_outcomes_witness :
    ∃ companies,
      login_device true [⟨"GPU-0001", "amy@x.com"⟩]
          [⟨"GPU-0001", "gpos_company", "Fresh Mart"⟩]
          [⟨"Main Counter", "Fresh Mart", false⟩,
           ⟨"Old Counter", "Fresh Mart", true⟩]
          "KEY" "SECRET" "amy@x.com" "dev-7" =
        .ok "amy@x.com" "dev-7" companies "KEY" "SECRET" ∧
      (∀ c ps, (c, ps) ∈ companies →
        c ≠ "" ∧
        (∃ l ∈ [(⟨"GPU-0001", "gpos_company", "Fresh Mart"⟩ : CompanyLink)],
          l.parent = "GPU-0001" ∧ l.parentfield = "gpos_company" ∧
          l.linked_company = c) ∧
        ps = ([⟨"Main Counter", "Fresh Mart", false⟩,
            ⟨"Old Counter", "Fresh Mart", true⟩].filter
          (fun p : PosProfile => p.company == c && p.disabled == false)).map
          (fun p => p.name)) := by
  have h := (login_device_outcomes true [⟨"GPU-0001", "amy@x.com"⟩]
      [⟨"GPU-0001", "gpos_company", "Fresh Mart"⟩]
      [⟨"Main Counter", "Fresh Mart", false⟩,
       ⟨"Old Counter", "Fresh Mart", true⟩]
      "KEY" "SECRET" "amy@x.com" "dev-7").2.2 ⟨"GPU-0001", "amy@x.com"⟩
      rfl (by decide)
  obtain ⟨companies, hok, hmem, -⟩ := h
  exact ⟨companies, hok, hmem⟩

/-! ## Item / customer listing (`src/golbazaar/api.py`, `get_items`,
`get_customers`)

Both endpoints run the same SQL pagination: a COUNT query and a SELECT
query with identical WHERE clauses (base conditions, optional search
condition, optional `modified > cursor` condition), ordered by
`modified desc, name asc` with `LIMIT page_length OFFSET start`, followed
by pagination metadata and — when a cursor was supplied — an UPDATE of the
returned rows' `modified` timestamps.

A table row is modelled by the two fields the claims touch (`name`, the
primary key, and `modified`, a timestamp on a total order).  All WHERE
conditions other than the `modified` cursor (disabled/sales-item flags,
item-group boundaries, bin-availability join, search `LIKE`s) are the
opaque `cond`; `datetime.strptime` is the opaque `parse` (`none` models
`ValueError`); `search_by_term`+`filter_result_items` is the opaque
`searchFn` result list; `now_datetime()` is `now`. -/

/-- A `tabItem` / `tabCustomer` row as the endpoints read it. -/
structure DbRow where
  name : String
  modified : ℕ
deriving DecidableEq, Repr

/-- `ORDER BY modified desc, name asc`. -/
def rowLe (a b : DbRow) : Bool :=
  decide (b.modified < a.modified) ||
    (a.modified == b.modified && decide (a.name ≤ b.name))

/-- Insert into a sorted list (insertion sort step). -/
def insertLe (x : DbRow) : List DbRow → List DbRow
  | [] => [x]
  | y :: ys => if rowLe x y then x :: y :: ys else y :: insertLe x ys

/-- Sort rows by `modified desc, name asc` (names are primary keys, so the
sort key is unique and any correct sort produces the SQL result order). -/
def sortRows : List DbRow → List DbRow
  | [] => []
  | x :: xs => insertLe x (sortRows xs)

lemma length_insertLe (x : DbRow) : ∀ l, (insertLe x l).length = l.length + 1 := by
  intro l
  induction l with
  | nil => rfl
  | cons y ys ih =>
      unfold insertLe
      split
      · simp
      · simp [ih]

lemma length_sortRows : ∀ l, (sortRows l).length = l.length := by
  intro l
  induction l with
  | nil => rfl
  | cons x xs ih =>
      unfold sortRows
      rw [length_insertLe, ih, List.length_cons]

lemma mem_insertLe (x a : DbRow) : ∀ l, a ∈ insertLe x l ↔ (a = x ∨ a ∈ l) := by
  intro l
  induction l with
  | nil => simp [insertLe]
  | cons y ys ih =>
      unfold insertLe
      split
      · simp
      · rw [List.mem_cons, ih, List.mem_cons]
        tauto

lemma mem_sortRows (a : DbRow) : ∀ l, a ∈ sortRows l ↔ a ∈ l := by
  intro l
  induction l with
  | nil => simp [sortRows]
  | cons x xs ih =>
      unfold sortRows
      rw [mem_insertLe, ih, List.mem_cons]

/-- The `UPDATE tab... SET modified = %(modified)s WHERE name IN (...)`
step marking returned rows as synced. -/
def markSynced (now : ℕ) (codes : List String) (db : List DbRow) :
    List DbRow :=
  db.map (fun r => if codes.contains r.name then ⟨r.name, now⟩ else r)

/-- Responses of the two endpoints: a `{"message": {"error": ...}}` dict
(with the HTTP status code when one is set), the search-path
`{"items": result}` return of `get_items` (no pagination metadata), or a
full page with pagination metadata. -/
inductive PageResp where
  | error (status : Option ℕ) (msg : String)
  | searchItems (items : List DbRow)
  | page (items : List DbRow) (total limit offset : ℕ) (has_more : Bool)
      (next_offset : Option ℕ)
deriving DecidableEq, Repr

/-- The shared SQL tail of both endpoints (`api.py` lines 286–351, 473–503
for items; 616–668, 712–741 for customers): COUNT and SELECT over the same
filtered rows, the empty-page early return, pagination metadata, and the
modified-timestamp update when a cursor was supplied (`markIt`). -/
def sqlPageQuery (now start pageLength : ℕ) (markIt : Bool)
    (rows db : List DbRow) : PageResp × List DbRow :=
  let total := rows.length
  let sorted := sortRows rows
  let pageRows := (sorted.drop start).take pageLength
  if pageRows = [] then (.page [] total pageLength start false none, db)
  else
    let has_more := decide (start + pageLength < total)
    let next_offset :=
      if start + pageLength < total then some (start + pageLength) else none
    let db' := if markIt then markSynced now (pageRows.map (fun r => r.name)) db
      else db
    (.page pageRows total pageLength start has_more next_offset, db')

/-- The filtered row set both queries range over: the opaque conditions
plus `modified > cursor` when a cursor is active. -/
def filteredRows (cond : DbRow → Bool) (cursor : Option ℕ)
    (db : List DbRow) : List DbRow :=
  db.filter (fun r => cond r &&
    (match cursor with
     | some dt => decide (dt < r.modified)
     | none => true))

/-- `get_items` after cursor parsing (`cursor = some dt` iff a truthy
`last_updated_time` parsed to `dt`): the modified-codes early return, the
search path, then the SQL pagination. -/
def get_items_main (db : List DbRow) (cond : DbRow → Bool)
    (priceDb : List (String × ℕ)) (searchFn : List DbRow) (now : ℕ)
    (start pageLength : ℕ) (searchTerm priceList : String)
    (cursor : Option ℕ) : PageResp × List DbRow :=
  let step2 : PageResp × List DbRow :=
    if searchTerm ≠ "" then
      if priceList = "" then
        (.error none "price_list is required when using search_term", db)
      else if searchFn ≠ [] then (.searchItems searchFn, db)
      else sqlPageQuery now start pageLength cursor.isSome
        (filteredRows cond cursor db) db
    else sqlPageQuery now start pageLength cursor.isSome
      (filteredRows cond cursor db) db
  match cursor with
  | some dt =>
      if searchTerm ≠ "" then
        if ((db.filter (fun r => decide (dt < r.modified))).map
              (fun r => r.name) ++
            (priceDb.filter (fun p => decide (dt < p.2))).map Prod.fst)
            = [] then
          (.page [] 0 pageLength start false none, db)
        else step2
      else step2
  | none => step2

/-- `get_items` (`api.py` lines 172–508).  A `last_updated_time` of `None`
or `""` is Python-falsy and skips cursor handling entirely; a non-empty one
that fails `strptime` returns the 400 error. -/
def get_items (db : List DbRow) (cond : DbRow → Bool)
    (priceDb : List (String × ℕ)) (searchFn : List DbRow)
    (parse : String → Option ℕ) (now : ℕ) (start pageLength : ℕ)
    (searchTerm priceList : String) (lastUpdatedTime : Option String) :
    PageResp × List DbRow :=
  match lastUpdatedTime with
  | some s =>
      if s ≠ "" then
        match parse s with
        | none => (.error (some 400)
            "Invalid datetime format. Use YYYY-MM-DD HH:MM:SS", db)
        | some dt => get_items_main db cond priceDb searchFn now start
            pageLength searchTerm priceList (some dt)
      else get_items_main db cond priceDb searchFn now start pageLength
        searchTerm priceList none
  | none => get_items_main db cond priceDb searchFn now start pageLength
      searchTerm priceList none

/-- `get_customers` (`api.py` lines 563–746): cursor parsing then the SQL
pagination (its search condition is part of `cond`; there is no
search-by-term bypass). -/
def get_customers (db : List DbRow) (cond : DbRow → Bool)
    (parse : String → Option ℕ) (now : ℕ) (start pageLength : ℕ)
    (lastUpdatedTime : Option String) : PageResp × List DbRow :=
  match lastUpdatedTime with
  | some s =>
      if s ≠ "" then
        match parse s with
        | none => (.error (some 400)
            "Invalid datetime format. Use YYYY-MM-DD HH:MM:SS", db)
        | some dt => sqlPageQuery now start pageLength true
            (filteredRows cond (some dt) db) db
      else sqlPageQuery now start pageLength false
        (filteredRows cond none db) db
  | none => sqlPageQuery now start pageLength false
      (filteredRows cond none db) db

/-- The pagination-metadata relation C5 describes for a page response. -/
def PaginationOk (pageLength start total limit offset : ℕ) (hm : Bool)
    (nx : Option ℕ) : Prop :=
  limit = pageLength ∧ offset = start ∧
  (hm = true ↔ offset + limit < total) ∧
  nx = (if offset + limit < total then some (offset + limit) else none)

lemma sqlPageQuery_page {now start pageLength : ℕ} {markIt : Bool}
    {rows db : List DbRow} (hpl : 0 < pageLength) {items : List DbRow}
    {total limit offset : ℕ} {hm : Bool} {nx : Option ℕ}
    (h : (sqlPageQuery now start pageLength markIt rows db).1 =
      .page items total limit offset hm nx) :
    PaginationOk pageLength start total limit offset hm nx := by
  unfold sqlPageQuery at h
  dsimp only at h
  by_cases hempty : ((sortRows rows).drop start).take pageLength = []
  · rw [if_pos hempty] at h
    dsimp only at h
    have hle : rows.length ≤ start := by
      have hlen := congrArg List.length hempty
      rw [List.length_take, List.length_drop, length_sortRows] at hlen
      simp only [List.length_nil] at hlen
      omega
    rw [PageResp.page.injEq] at h
    obtain ⟨-, h2, h3, h4, h5, h6⟩ := h
    subst h2; subst h3; subst h4
    refine ⟨rfl, rfl, ?_, ?_⟩
    · rw [← h5]
      constructor
      · intro habs; exact absurd habs (by simp)
      · intro habs; omega
    · rw [← h6, if_neg (by omega)]
  · rw [if_neg hempty] at h
    dsimp only at h
    rw [PageResp.page.injEq] at h
    obtain ⟨-, h2, h3, h4, h5, h6⟩ := h
    subst h2; subst h3; subst h4
    refine ⟨rfl, rfl, ?_, h6.symm⟩
    rw [← h5]
    simp

lemma items_step2_page {db searchFn : List DbRow} {now start pageLength : ℕ}
    {markIt : Bool} {rows : List DbRow} {searchTerm priceList : String}
    (hpl : 0 < pageLength) {items : List DbRow} {total limit offset : ℕ}
    {hm : Bool} {nx : Option ℕ}
    (h : ((if searchTerm ≠ "" then
        if priceList = "" then
          ((.error none "price_list is required when using search_term" :
            PageResp), db)
        else if searchFn ≠ [] then ((.searchItems searchFn : PageResp), db)
        else sqlPageQuery now start pageLength markIt rows db
      else sqlPageQuery now start pageLength markIt rows db)).1 =
      .page items total limit offset hm nx) :
    PaginationOk pageLength start total limit offset hm nx := by
  by_cases hst : searchTerm ≠ ""
  · rw [if_pos hst] at h
    by_cases hplist : priceList = ""
    · rw [if_pos hplist] at h
      exact absurd h (by simp)
    · rw [if_neg hplist] at h
      by_cases hsf : searchFn ≠ []
      · rw [if_pos hsf] at h
        exact absurd h (by simp)
      · rw [if_neg hsf] at h
        exact sqlPageQuery_page hpl h
  · rw [if_neg hst] at h
    exact sqlPageQuery_page hpl h

lemma emptyPage_meta {pageLength start : ℕ} {items : List DbRow}
    {total limit offset : ℕ} {hm : Bool} {nx : Option ℕ}
    (h : (PageResp.page [] 0 pageLength start false none) =
      .page items total limit offset hm nx) :
    PaginationOk pageLength start total limit offset hm nx := by
  rw [PageResp.page.injEq] at h
  obtain ⟨-, h2, h3, h4, h5, h6⟩ := h
  subst h2; subst h3; subst h4
  refine ⟨rfl, rfl, ?_, ?_⟩
  · rw [← h5]
    constructor
    · intro habs; exact absurd habs (by simp)
    · intro habs; omega
  · rw [← h6, if_neg (by omega)]

/-- C5 (amended): for every `get_items` / `get_customers` call with a
positive `page_length` whose response carries pagination metadata,
`has_more` is true exactly when `offset + limit < total`, and `next_offset`
equals `offset + limit` when `has_more` is true and is null otherwise. -/
theorem pagination_metadata (db : List DbRow) (cond : DbRow → Bool)
    (priceDb : List (String × ℕ)) (searchFn : List DbRow)
    (parse : String → Option ℕ) (now start pageLength : ℕ)
    (searchTerm priceList : String) (lastUpdatedTime : Option String)
    (hpl : 0 < pageLength) :
    (∀ items total limit offset hm nx,
      (get_items db cond priceDb searchFn parse now start pageLength
        searchTerm priceList lastUpdatedTime).1 =
        .page items total limit offset hm nx →
      PaginationOk pageLength start total limit offset hm nx) ∧
    (∀ items total limit offset hm nx,
      (get_customers db cond parse now start pageLength
        lastUpdatedTime).1 = .page items total limit offset hm nx →
      PaginationOk pageLength start total limit offset hm nx) := by
  have hmain : ∀ cursor items total limit offset hm nx,
      (get_items_main db cond priceDb searchFn now start pageLength
        searchTerm priceList cursor).1 =
        .page items total limit offset hm nx →
      PaginationOk pageLength start total limit offset hm nx := by
    intro cursor items total limit offset hm nx h
    unfold get_items_main at h
    cases cursor with
    | none =>
        dsimp only at h
        exact items_step2_page hpl h
    | some dt =>
        dsimp only at h
        by_cases hst : searchTerm ≠ ""
        · rw [if_pos hst] at h
          by_cases hmc : ((db.filter
              (fun r => decide (dt < r.modified))).map (fun r => r.name) ++
              (priceDb.filter (fun p => decide (dt < p.2))).map Prod.fst)
              = []
          · rw [if_pos hmc] at h
            exact emptyPage_meta h
          · rw [if_neg hmc] at h
            exact items_step2_page hpl h
        · rw [if_neg hst] at h
          exact items_step2_page hpl h
  constructor
  · intro items total limit offset hm nx h
    unfold get_items at h
    cases lastUpdatedTime with
    | none => exact hmain none items total limit offset hm nx h
    | some s =>
        dsimp only at h
        by_cases hs : s ≠ ""
        · rw [if_pos hs] at h
          cases hp : parse s with
          | none => rw [hp] at h; exact absurd h (by simp)
          | some dt =>
              rw [hp] at h
              exact hmain (some dt) items total limit offset hm nx h
        · rw [if_neg hs] at h
          exact hmain none items total limit offset hm nx h
  · intro items total limit offset hm nx h
    unfold get_customers at h
    cases lastUpdatedTime with
    | none => exact sqlPageQuery_page hpl h
    | some s =>
        dsimp only at h
        by_cases hs : s ≠ ""
        · rw [if_pos hs] at h
          cases hp : parse s with
          | none => rw [hp] at h; exact absurd h (by simp)
          | some dt => rw [hp] at h; exact sqlPageQuery_page hpl h
        · rw [if_neg hs] at h
          exact sqlPageQuery_page hpl h

/-- C5 as stated is false: a call with `page_length = 0` (e.g. from
`cint("0")` or `cint` of a malformed value) over one matching row reports
`total = 1` with `has_more = false` and `next_offset = null`, although
`offset + limit = 0 < 1 = total`.  Both endpoints exhibit it. -/
theorem pagination_claim_counterexample :
    (get_items [⟨"A", 5⟩] (fun _ => true) [] [] (fun _ => none) 99 0 0 ""
      "Standard Selling" none).1 = .page [] 1 0 0 false none ∧
    (get_customers [⟨"A", 5⟩] (fun _ => true) (fun _ => none) 99 0 0
      none).1 = .page [] 1 0 0 false none ∧
    0 + 0 < 1 := by
  refine ⟨by decide, by decide, by decide⟩

/-- Witness for C5 (amended): two rows, `page_length = 1`, first page:
`has_more` is true and `next_offset` is 1. -/
theorem pagination_metadata_witness :
    PaginationOk 1 0 2 1 0 true (some 1) :=
  (pagination_metadata [⟨"A", 5⟩, ⟨"B", 3⟩] (fun _ => true) [] []
      (fun _ => none) 99 0 1 "" "Standard Selling" none (by decide)).1
    [⟨"A", 5⟩] 2 1 0 true (some 1) (by decide)

/-- C7 (amended): a non-empty `last_updated_time` that does not parse in
the format `YYYY-MM-DD HH:MM:SS` makes both endpoints return the
"Invalid datetime format. Use YYYY-MM-DD HH:MM:SS" error with HTTP status
400, with no records returned and no modified-timestamp update (the table
is unchanged). -/
theorem invalid_cursor_rejected (db : List DbRow) (cond : DbRow → Bool)
    (priceDb : List (String × ℕ)) (searchFn : List DbRow)
    (parse : String → Option ℕ) (now start pageLength : ℕ)
    (searchTerm priceList : String) (s : String) (hs : s ≠ "")
    (hp : parse s = none) :
    get_items db cond priceDb searchFn parse now start pageLength
      searchTerm priceList (some s) =
      (.error (some 400) "Invalid datetime format. Use YYYY-MM-DD HH:MM:SS",
        db) ∧
    get_customers db cond parse now start pageLength (some s) =
      (.error (some 400) "Invalid datetime format. Use YYYY-MM-DD HH:MM:SS",
        db) := by
  constructor
  · unfold get_items
    dsimp only
    rw [if_pos hs, hp]
  · unfold get_customers
    dsimp only
    rw [if_pos hs, hp]

/-- Witness for C7 (amended): `last_updated_time = "31-12-2024"` fails to
parse and both endpoints return the 400 error leaving the table unchanged. -/
theorem invalid_cursor_rejected_witness :
    get_items [⟨"A", 5⟩] (fun _ => true) [] [] (fun _ => none) 99 0 50 ""
        "Standard Selling" (some "31-12-2024") =
      (.error (some 400) "Invalid datetime format. Use YYYY-MM-DD HH:MM:SS",
        [⟨"A", 5⟩]) ∧
    get_customers [⟨"A", 5⟩] (fun _ => true) (fun _ => none) 99 0 50
        (some "31-12-2024") =
      (.error (some 400) "Invalid datetime format. Use YYYY-MM-DD HH:MM:SS",
        [⟨"A", 5⟩]) :=
  invalid_cursor_rejected [⟨"A", 5⟩] (fun _ => true) [] [] (fun _ => none)
    99 0 50 "" "Standard Selling" "31-12-2024" (by decide) rfl

/-- C7 as stated is false for the empty string: `last_updated_time = ""`
does not parse (`strptime("", ...)` raises `ValueError`), yet
`if last_updated_time:` is Python-falsy, so the endpoint skips the check
and returns a normal page instead of the 400 error. -/
theorem invalid_cursor_claim_counterexample :
    (get_items [⟨"A", 5⟩] (fun _ => true) [] [] (fun _ => none) 99 0 50 ""
      "Standard Selling" (some "")).1 = .page [⟨"A", 5⟩] 1 50 0 false none ∧
    (fun _ => (none : Option ℕ)) "" = none := by
  refine ⟨by decide, rfl⟩

/-- C6 is violated by the code: with a valid cursor (parsing to time 5) and
a search term, `get_items` takes the `search_by_term` path as soon as *any*
item or item price was modified after the cursor ("Apple", modified 10),
and returns the search results unfiltered — here "Banana", modified 1 ≤ 5 —
without marking anything as synced (the table is returned unchanged). -/
theorem get_items_stale_search_results :
    get_items [⟨"Apple", 10⟩, ⟨"Banana", 1⟩] (fun _ => true) []
        [⟨"Banana", 1⟩]
        (fun s => if s = "2024-01-01 00:00:00" then some 5 else none) 42 0 50
        "Ban" "Standard Selling" (some "2024-01-01 00:00:00") =
      (.searchItems [⟨"Banana", 1⟩], [⟨"Apple", 10⟩, ⟨"Banana", 1⟩]) ∧
    ¬ (5 < 1) ∧
    (fun s => if s = "2024-01-01 00:00:00" then some 5 else
      (none : Option ℕ)) "2024-01-01 00:00:00" = some 5 := by
  refine ⟨by decide, by decide, rfl⟩

end Golbazaar
